import Mathlib

/-!
Shallow embedding of the per-frame avatar animation engine of
`src/components/Avatar.tsx` (digital_human repository).

Numbers are modelled as rationals.  The browser's `Math.sin`, `Math.cos`,
`Math.random()` and the constant `Math.PI` are opaque to the engine's control
flow, so they enter the model as components of an `Env` record; theorems hold
for every environment.  React state updates (`setBlinkState`) are deferred to
the next render, so within one `useFrame` call the blink state read is the
pre-frame value throughout; the model threads state explicitly with that
reading discipline.
-/

namespace DigitalHuman

/-! ### String matching helpers (JS `name.toLowerCase().includes(pat)`) -/

/-- Lower-cased character list of a string, as produced by
`node.name.toLowerCase()`. -/
def lowerStr (s : String) : List Char := s.toList.map Char.toLower

/-- Boolean test that `p` occurs at the head of `h` (pattern first). -/
def leadsWith : List Char → List Char → Bool
  | [], _ => true
  | _ :: _, [] => false
  | p :: ps, h :: hs => p == h && leadsWith ps hs

/-- Boolean substring containment, the semantics of JS `hay.includes(pat)`. -/
def strHas : List Char → List Char → Bool
  | [], pat => pat.isEmpty
  | c :: t, pat => leadsWith pat (c :: t) || strHas t pat

/-! ### Bone discovery (Avatar.tsx lines 49-74) -/

/-- The twelve logical bone keys of the `bones` record. -/
inductive BoneKey
  | neck | head | spine | hips
  | leftArm | leftForeArm | leftHand | leftShoulder
  | rightArm | rightForeArm | rightHand | rightShoulder
deriving DecidableEq, Repr

/-- Record with one optional slot per logical bone key, polymorphic in what a
slot holds (a discovered scene bone during introspection, a local rotation
during frame updates). -/
structure BonesT (α : Type) where
  neck : Option α
  head : Option α
  spine : Option α
  hips : Option α
  leftArm : Option α
  leftForeArm : Option α
  leftHand : Option α
  leftShoulder : Option α
  rightArm : Option α
  rightForeArm : Option α
  rightHand : Option α
  rightShoulder : Option α
deriving DecidableEq, Repr

/-- The all-`none` record the discovery fold starts from. -/
def emptyBones {α : Type} : BonesT α :=
  ⟨none, none, none, none, none, none, none, none, none, none, none, none⟩

/-- Slot lookup by logical key. -/
def getKey {α : Type} (b : BonesT α) : BoneKey → Option α
  | .neck => b.neck
  | .head => b.head
  | .spine => b.spine
  | .hips => b.hips
  | .leftArm => b.leftArm
  | .leftForeArm => b.leftForeArm
  | .leftHand => b.leftHand
  | .leftShoulder => b.leftShoulder
  | .rightArm => b.rightArm
  | .rightForeArm => b.rightForeArm
  | .rightHand => b.rightHand
  | .rightShoulder => b.rightShoulder

/-- Slot overwrite at a logical key. -/
def setKey {α : Type} (b : BonesT α) (k : BoneKey) (v : α) : BonesT α :=
  match k with
  | .neck => { b with neck := some v }
  | .head => { b with head := some v }
  | .spine => { b with spine := some v }
  | .hips => { b with hips := some v }
  | .leftArm => { b with leftArm := some v }
  | .leftForeArm => { b with leftForeArm := some v }
  | .leftHand => { b with leftHand := some v }
  | .leftShoulder => { b with leftShoulder := some v }
  | .rightArm => { b with rightArm := some v }
  | .rightForeArm => { b with rightForeArm := some v }
  | .rightHand => { b with rightHand := some v }
  | .rightShoulder => { b with rightShoulder := some v }

/-- A bone node met by `scene.traverse`; `id` distinguishes distinct nodes
whose names coincide. -/
structure SceneBone where
  name : String
  id : Nat
deriving DecidableEq, Repr

/-- The `if`/`else if` classification chain of the discovery traversal
(Avatar.tsx lines 60-71).  `spineEmpty` is the `!b.spine` occupancy test the
spine branch consults at the moment the node is processed. -/
def hitKey (spineEmpty : Bool) (nodeName : String) : Option BoneKey :=
  let nm := lowerStr nodeName
  let has := fun (p : String) => strHas nm p.toList
  if has "head" then some .head
  else if has "neck" then some .neck
  else if has "spine2" || (has "spine" && spineEmpty) then some .spine
  else if has "hips" then some .hips
  else if has "left" && has "shoulder" then some .leftShoulder
  else if has "left" && has "forearm" then some .leftForeArm
  else if has "left" && has "hand" then some .leftHand
  else if has "left" && has "arm" then some .leftArm
  else if has "right" && has "shoulder" then some .rightShoulder
  else if has "right" && has "forearm" then some .rightForeArm
  else if has "right" && has "hand" then some .rightHand
  else if has "right" && has "arm" then some .rightArm
  else none

/-- Processing of one traversed bone node: the branch selected by `hitKey`
overwrites that key's slot, all other slots are untouched. -/
def assignStep (b : BonesT SceneBone) (node : SceneBone) : BonesT SceneBone :=
  match hitKey b.spine.isNone node.name with
  | some k => setKey b k node
  | none => b

/-- The whole discovery pass: fold of `assignStep` over the traversal order. -/
def discoverBones (nodes : List SceneBone) : BonesT SceneBone :=
  nodes.foldl assignStep emptyBones

/-- First-some choice on options. -/
def orO {α : Type} : Option α → Option α → Option α
  | some x, _ => some x
  | none, b => b

/-- Last node of the list whose stable classification is key `k`. -/
def lastMatch (k : BoneKey) : List SceneBone → Option SceneBone
  | [] => none
  | n :: ns =>
      orO (lastMatch k ns) (if hitKey true n.name = some k then some n else none)

/-! ### Frame-update model (Avatar.tsx lines 133-241) -/

/-- `MathUtils.lerp(x, y, t) = x + (y - x) * t`. -/
def lerp (a b t : ℚ) : ℚ := a + (b - a) * t

/-- `MathUtils.degToRad`; the model's stand-in for `Math.PI` is supplied by
the environment. -/
def degToRad (piA d : ℚ) : ℚ := d * (piA / 180)

/-- Opaque numeric environment: trigonometric functions, the `Math.random()`
sample drawn this frame, and the value of `Math.PI`. -/
structure Env where
  sin : ℚ → ℚ
  cos : ℚ → ℚ
  rand : ℚ
  pi : ℚ

/-- The expressive mesh: morph-target dictionary plus influence array
(modelled as a total map from indices). -/
structure Mesh where
  dict : String → Option Nat
  infl : Nat → ℚ

/-- Write one influence entry. -/
def writeInfl (m : Mesh) (i : Nat) (v : ℚ) : Mesh :=
  { m with infl := fun j => if j = i then v else m.infl j }

/-- Ordered preference list for the lip-sync morph target. -/
def mouthTargets : List String := ["viseme_aa", "jawOpen", "mouthOpen", "mouth_open"]

/-- The steady-state lip-sync target: `intensity * 1.2`. -/
def lipTarget (intensity : ℚ) : ℚ := intensity * (6/5)

/-- Lip sync: write `lerp(current, intensity * 1.2, 0.4)` into the first
existing mouth target, if any (lines 141-145). -/
def lipStep (intensity : ℚ) (m : Mesh) : Mesh :=
  match List.findSome? m.dict mouthTargets with
  | some i => writeInfl m i (lerp (m.infl i) (lipTarget intensity) (2/5))
  | none => m

/-- Smile-family names (lines 148-154). -/
def smileTargets : List String := ["mouthSmile", "mouthSmileLeft", "mouthSmileRight", "smile"]

/-- One smile-family write: `lerp(current, target, rate)` if the name exists. -/
def lerpWrite (target rate : ℚ) (m : Mesh) (name : String) : Mesh :=
  match m.dict name with
  | some i => writeInfl m i (lerp (m.infl i) target rate)
  | none => m

/-- Baseline smile: every existing smile-family target lerps toward 0.4 at
rate 0.1. -/
def smileStep (m : Mesh) : Mesh :=
  smileTargets.foldl (lerpWrite (2/5) (1/10)) m

/-- The blink state as held in React state: `{ isBlinking, nextBlink }`. -/
structure BlinkSt where
  isBlinking : Bool
  nextBlink : ℚ
deriving DecidableEq, Repr

/-- Eyelid-closure morph names written by the blink cycle (line 167). -/
def blinkNames : List String := ["eyeBlinkLeft", "eyeBlinkRight", "eyesClosed", "blink"]

/-- Unconditional influence write (blink values are set, not lerped). -/
def setWrite (v : ℚ) (m : Mesh) (name : String) : Mesh :=
  match m.dict name with
  | some i => writeInfl m i v
  | none => m

/-- Triangular blink profile over `progress = elapsed / 150` (line 163). -/
def blinkValue (progress : ℚ) : ℚ :=
  if progress < 1/2 then progress * 2
  else if progress < 1 then 2 - progress * 2
  else 0

/-- One frame of the blink state machine (lines 156-171).  Both `if`s of the
source read the same pre-frame React state, and at most one `setBlinkState`
fires per frame, so the two source branches are disjoint on the incoming
`isBlinking` flag. -/
def blinkStep (rand nowMs : ℚ) (bs : BlinkSt) (m : Mesh) : BlinkSt × Mesh :=
  if bs.isBlinking then
    let progress := (nowMs - bs.nextBlink) / 150
    let v := blinkValue progress
    let bs2 := if 1 ≤ progress then ⟨false, nowMs + 2000 + rand * 4000⟩ else bs
    (bs2, blinkNames.foldl (setWrite v) m)
  else if bs.nextBlink < nowMs then (⟨true, bs.nextBlink⟩, m)
  else (bs, m)

/-- One talking-expression write: lerp toward the oscillating target while
talking, toward 0 otherwise, at rate 0.1 (lines 180-187). -/
def exprWrite (isTalking : Bool) (targetValue : ℚ) (m : Mesh) (name : String) : Mesh :=
  match m.dict name with
  | some i => writeInfl m i (lerp (m.infl i) (if isTalking then targetValue else 0) (1/10))
  | none => m

/-- Dynamic expressions while talking: `browInnerUp`, `cheekSquintLeft`,
`cheekSquintRight` in object-insertion order (lines 174-187). -/
def exprStep (env : Env) (t : ℚ) (isTalking : Bool) (m : Mesh) : Mesh :=
  let targets : List (String × ℚ) :=
    [("browInnerUp", env.sin (t * (3/2)) * (1/10) + 1/10),
     ("cheekSquintLeft", env.sin (t * (21/10)) * (1/10) + 1/10),
     ("cheekSquintRight", env.sin (t * (23/10)) * (1/10) + 1/10)]
  targets.foldl (fun mm p => exprWrite isTalking p.2 mm p.1) m

/-- All morph writes of one frame, in source order: lip sync, smile, blink,
talking expressions. -/
def morphBlock (env : Env) (t intensity : ℚ) (isTalking : Bool)
    (bs : BlinkSt) (m : Mesh) : BlinkSt × Mesh :=
  let m2 := smileStep (lipStep intensity m)
  let r := blinkStep env.rand (t * 1000) bs m2
  (r.1, exprStep env t isTalking r.2)

/-- A registered animation clip with its three.js action observables. -/
structure Clip where
  name : String
  running : Bool
  weight : ℚ
  fadeTarget : ℚ
deriving DecidableEq, Repr

/-- Line 190: `names.some(n => actions[n]?.isRunning() &&
actions[n]!.getEffectiveWeight() > 0.1)`. -/
def isAnyAnimPlaying (clips : List Clip) : Bool :=
  clips.any fun c => c.running && decide ((1:ℚ)/10 < c.weight)

/-- Local rotation of a bone. -/
structure BoneRot where
  x : ℚ
  y : ℚ
  z : ℚ
deriving DecidableEq, Repr

/-- Idle baseline for the left arm (degrees), lines 206 and 78-81. -/
def idleLArm : BoneRot := ⟨61, -20, -8⟩

/-- Idle baseline for the right arm (degrees), lines 208 and 86-89. -/
def idleRArm : BoneRot := ⟨61, 20, 14⟩

/-- Procedural bone writes of one frame (lines 193-239).  Discovery assigns
each scene bone to at most one key, so no two slots alias and the source's
sequential per-slot writes equal this simultaneous record update. -/
def boneStep (env : Env) (t : ℚ) (isTalking : Bool) (b : BonesT BoneRot) : BonesT BoneRot :=
  let sp : ℚ := 1/10
  let breath := env.sin (t * (3/2)) * (1/100)
  let gestureTime := t * (6/5)
  let lArm : BoneRot :=
    if isTalking then
      ⟨50 + env.sin (gestureTime * (7/10)) * 5, -20, -5 + env.cos (gestureTime * (9/10)) * 5⟩
    else idleLArm
  let lForeZ : ℚ := if isTalking then 20 else 15
  let rArm : BoneRot :=
    if isTalking then
      ⟨40 + env.sin gestureTime * 10, 25 + env.cos (gestureTime * (4/5)) * 5,
       -10 + env.sin gestureTime * 15⟩
    else idleRArm
  let rForeZ : ℚ := if isTalking then -40 + env.cos (gestureTime * (6/5)) * 20 else -15
  { b with
    spine := b.spine.map fun r => { r with x := lerp r.x breath sp }
    head := b.head.map fun r =>
      { r with
        x := lerp r.x (breath * 2) sp
        y := lerp r.y (env.sin (t * (1/2)) * (1/20)) sp }
    leftArm := b.leftArm.map fun r =>
      ⟨lerp r.x (degToRad env.pi lArm.x) sp,
       lerp r.y (degToRad env.pi lArm.y) sp,
       lerp r.z (degToRad env.pi lArm.z) sp⟩
    leftForeArm := b.leftForeArm.map fun r =>
      { r with z := lerp r.z (degToRad env.pi lForeZ) sp }
    rightArm := b.rightArm.map fun r =>
      ⟨lerp r.x (degToRad env.pi rArm.x) sp,
       lerp r.y (degToRad env.pi rArm.y) sp,
       lerp r.z (degToRad env.pi rArm.z) sp⟩
    rightForeArm := b.rightForeArm.map fun r =>
      { r with z := lerp r.z (degToRad env.pi rForeZ) sp } }

/-- The per-frame engine state: optional expressive mesh, tracked bone
rotations, blink state, smoothed audio. -/
structure FrameState where
  mesh : Option Mesh
  bones : BonesT BoneRot
  blink : BlinkSt
  smoothAudio : ℚ

/-- Morph/blink part of the frame, guarded on mesh presence (line 139). -/
def frameMorph (env : Env) (t intensity : ℚ) (isTalking : Bool)
    (blink : BlinkSt) (mesh : Option Mesh) : BlinkSt × Option Mesh :=
  match mesh with
  | some m =>
      let r := morphBlock env t intensity isTalking blink m
      (r.1, some r.2)
  | none => (blink, none)

/-- One full `useFrame` callback (lines 133-241): smooth the audio level,
run the morph block, then run the procedural pose controller behind the
`!isAnyAnimPlaying && !isDebuggingBones` guard (line 192). -/
def frame (env : Env) (clips : List Clip) (isDebuggingBones : Bool)
    (t audioLevel : ℚ) (s : FrameState) : FrameState :=
  let smooth := lerp s.smoothAudio audioLevel (1/5)
  let isTalking : Bool := decide ((1:ℚ)/20 < smooth)
  let bm := frameMorph env t smooth isTalking s.blink s.mesh
  { mesh := bm.2
    bones :=
      if !isAnyAnimPlaying clips && !isDebuggingBones then
        boneStep env t isTalking s.bones
      else s.bones
    blink := bm.1
    smoothAudio := smooth }

/-- The coupled smoothed-audio / mouth-influence step with the raw level held
at 1; the influence is updated from the freshly smoothed value, as in the
source (lines 135 and 144). -/
def talkFrame (p : ℚ × ℚ) : ℚ × ℚ :=
  (lerp p.1 1 (1/5), lerp p.2 (lipTarget (lerp p.1 1 (1/5))) (2/5))

/-! ### Clip registry requests (Avatar.tsx lines 96-105)

The external control surface holds one `AnimationControl` per registered clip
name (`names.map`); a play/stop request for a name dispatches to the control
of that name, and a name with no control does nothing. -/

/-- Lookup of the control carrying a requested name. -/
def findClip (reg : List Clip) (nm : String) : Option Clip :=
  reg.find? fun c => c.name == nm

/-- `fadeOut(0.5)`: the clip's weight starts ramping to 0. -/
def fadeOutClip (c : Clip) : Clip := { c with fadeTarget := 0 }

/-- `play` request, line 98-102: every clip fades out, then the named clip is
reset and fades in from zero weight; an unregistered name has no control and
nothing runs. -/
def playByName (reg : List Clip) (nm : String) : List Clip :=
  match findClip reg nm with
  | some _ =>
      reg.map fun c =>
        if c.name == nm then { c with running := true, weight := 0, fadeTarget := 1 }
        else fadeOutClip c
  | none => reg

/-- `stop` request, line 103: the named clip fades out. -/
def stopByName (reg : List Clip) (nm : String) : List Clip :=
  match findClip reg nm with
  | some _ => reg.map fun c => if c.name == nm then fadeOutClip c else c
  | none => reg

/-! ### Concrete inputs used by counterexamples and witnesses -/

/-- Environment with trivial trigonometry, used to instantiate universally
quantified theorems. -/
def envZero : Env := ⟨fun _ => 0, fun _ => 0, 0, 0⟩

/-- State with no mesh, no bones, audio at rest. -/
def sZero : FrameState := ⟨none, emptyBones, ⟨false, 2000⟩, 0⟩

/-- A clip that is not running but whose effective weight is 1. -/
def strayClip : Clip := ⟨"wave", false, 1, 1⟩

/-- Mesh whose only morph target is `blink` at index 0. -/
def mDemo : Mesh := ⟨fun nm => if nm == "blink" then some 0 else none, fun _ => 0⟩

/-- Mesh with an empty morph-target dictionary. -/
def mEmpty : Mesh := ⟨fun _ => none, fun _ => 0⟩

/-- Two distinct bones whose names both contain `spine` and not `spine2`. -/
def spineBoneA : SceneBone := ⟨"spinea", 0⟩

/-- Second plain-spine bone, visited after `spineBoneA`. -/
def spineBoneB : SceneBone := ⟨"spineb", 1⟩

/-- Bone rotation at the origin. -/
def rotZero : BoneRot := ⟨0, 0, 0⟩

/-- State with the four gesture bones present and audio at rest. -/
def sIdle : FrameState :=
  ⟨none,
   { emptyBones with
     leftArm := some rotZero, leftForeArm := some rotZero,
     rightArm := some rotZero, rightForeArm := some rotZero },
   ⟨false, 2000⟩, 0⟩

/-- State carrying a mesh with an empty morph dictionary and no bones. -/
def sMeshOnly : FrameState := ⟨some mEmpty, emptyBones, ⟨false, 2000⟩, 0⟩

/-- Mesh whose only morph target is `viseme_aa` at index 0. -/
def mMouth : Mesh := ⟨fun nm => if nm == "viseme_aa" then some 0 else none, fun _ => 0⟩

/-- Bone named `Head`, visited first in the stability witness. -/
def headBoneA : SceneBone := ⟨"Head", 0⟩

/-- Bone named `xhead`, visited second in the stability witness. -/
def headBoneB : SceneBone := ⟨"xhead", 1⟩

/-! ### Helper lemmas -/

theorem getKey_setKey {α : Type} (b : BonesT α) (k k' : BoneKey) (v : α) :
    getKey (setKey b k v) k' = if k = k' then some v else getKey b k' := by
  cases k <;> cases k' <;> simp [getKey, setKey]

theorem getKey_emptyBones {α : Type} (k : BoneKey) :
    getKey (emptyBones : BonesT α) k = none := by
  cases k <;> rfl

theorem orO_none {α : Type} (a : Option α) : orO a none = a := by
  cases a <;> rfl

end DigitalHuman

namespace DigitalHuman

theorem setWrite_dict (v : ℚ) (m : Mesh) (nm : String) :
    (setWrite v m nm).dict = m.dict := by
  unfold setWrite
  cases m.dict nm <;> rfl

theorem setWrite_keep (v : ℚ) (m : Mesh) (nm : String) (i : Nat)
    (h : m.infl i = v) : (setWrite v m nm).infl i = v := by
  unfold setWrite writeInfl
  cases hd : m.dict nm with
  | none => simpa using h
  | some j =>
      simp only []
      by_cases hij : i = j <;> simp [hij, h]

theorem foldl_setWrite_keep (v : ℚ) (l : List String) (m : Mesh) (i : Nat)
    (h : m.infl i = v) : (l.foldl (setWrite v) m).infl i = v := by
  induction l generalizing m with
  | nil => simpa using h
  | cons a l ih => exact ih _ (setWrite_keep v m a i h)

theorem foldl_setWrite_writes (v : ℚ) (l : List String) (m : Mesh) (nm : String)
    (i : Nat) (hmem : nm ∈ l) (hd : m.dict nm = some i) :
    (l.foldl (setWrite v) m).infl i = v := by
  induction l generalizing m with
  | nil => cases hmem
  | cons a l ih =>
      rcases List.mem_cons.mp hmem with rfl | hmem2
      · have hw : (setWrite v m nm).infl i = v := by
          unfold setWrite writeInfl
          rw [hd]
          simp
        exact foldl_setWrite_keep v l _ i hw
      · exact ih _ hmem2 (by rw [setWrite_dict]; exact hd)

theorem decayIter (n : Nat) (x : ℚ) :
    (fun y => lerp y 0 (1/5))^[n] x = (4/5)^n * x := by
  induction n with
  | zero => simp
  | succ k ih =>
      rw [Function.iterate_succ_apply', ih]
      show lerp ((4/5)^k * x) 0 (1/5) = (4/5)^(k+1) * x
      unfold lerp
      ring

theorem talkIter (n : Nat) :
    talkFrame^[n] (0, 0) =
      (1 - (4/5)^n, 6/5 + (18/25) * (3/5)^n - (48/25) * (4/5)^n) := by
  induction n with
  | zero =>
      rw [Function.iterate_zero_apply]
      norm_num [Prod.ext_iff]
  | succ k ih =>
      rw [Function.iterate_succ_apply', ih]
      simp only [talkFrame, lerp, lipTarget, Prod.mk.injEq]
      constructor <;> ring

/-! ### Claim theorems -/

/-- C1: whenever some authored clip is contributing (`isAnyPlaying()` true)
or the bone-debug flag is set, the frame leaves every tracked bone rotation
unchanged, while the morph-target part of the frame (lip sync, smile, blink,
talking expression) and the smoothed audio are computed exactly as with no
clips and the flag clear; when neither condition holds, the frame performs
the procedural bone writes. -/
theorem frame_guard_bone_suppression (env : Env) (clips : List Clip) (dbg : Bool)
    (t a : ℚ) (s : FrameState) :
    (frame env clips dbg t a s).bones =
      (if isAnyAnimPlaying clips || dbg then s.bones
       else boneStep env t (decide ((1:ℚ)/20 < lerp s.smoothAudio a (1/5))) s.bones) ∧
    (frame env clips dbg t a s).mesh = (frame env [] false t a s).mesh ∧
    (frame env clips dbg t a s).blink = (frame env [] false t a s).blink ∧
    (frame env clips dbg t a s).smoothAudio = (frame env [] false t a s).smoothAudio := by
  refine ⟨?_, rfl, rfl, rfl⟩
  cases h : isAnyAnimPlaying clips <;> cases dbg <;> simp [frame, h]

/-- C3 counterexample: a registered clip whose blend weight exceeds 0.1 but
which is not running does not make `isAnyPlaying()` true — the source also
requires `isRunning()`. -/
theorem anyPlaying_weight_alone_insufficient :
    (1:ℚ)/10 < strayClip.weight ∧ isAnyAnimPlaying [strayClip] = false := by
  constructor
  · norm_num [strayClip]
  · rfl

/-- C3 (amended): `isAnyPlaying()` is true exactly when some registered clip
is running and its current blend weight exceeds 0.1. -/
theorem anyPlaying_iff_running_and_heavy (clips : List Clip) :
    isAnyAnimPlaying clips = true ↔
      ∃ c ∈ clips, c.running = true ∧ (1:ℚ)/10 < c.weight := by
  simp [isAnyAnimPlaying, List.any_eq_true, Bool.and_eq_true, decide_eq_true_eq]

/-- C4 counterexample: with the raw level at 10, one frame from a resting
state drives the smoothed audio to 2, outside the [0,1] range it can reach
for inputs inside [0,1] — the smoothing math performs no implicit clamping. -/
theorem smoothing_escapes_unit_interval :
    (frame envZero [] false 0 10 sZero).smoothAudio = 2 ∧
    1 < (frame envZero [] false 0 10 sZero).smoothAudio := by
  have h : (frame envZero [] false 0 10 sZero).smoothAudio = 2 := by
    show lerp sZero.smoothAudio 10 (1/5) = 2
    norm_num [sZero, lerp]
  exact ⟨h, by rw [h]; norm_num⟩

/-- C4 (amended): the engine never rejects a raw audio level (the update is a
total function), and for raw inputs inside [0,1] the smoothed value stays in
[0,1]; out-of-range inputs, however, are not clamped and can push the
smoothed value outside that range. -/
theorem smoothing_preserves_unit_interval (env : Env) (clips : List Clip) (dbg : Bool)
    (t a : ℚ) (s : FrameState)
    (h0 : 0 ≤ s.smoothAudio) (h1 : s.smoothAudio ≤ 1) (ha0 : 0 ≤ a) (ha1 : a ≤ 1) :
    0 ≤ (frame env clips dbg t a s).smoothAudio ∧
    (frame env clips dbg t a s).smoothAudio ≤ 1 := by
  have h : (frame env clips dbg t a s).smoothAudio = lerp s.smoothAudio a (1/5) := rfl
  rw [h]
  unfold lerp
  constructor <;> linarith

/-- Witness for the amended C4 theorem at a concrete in-range input. -/
theorem smoothing_preserves_unit_interval_witness :
    (0:ℚ) ≤ sZero.smoothAudio ∧ sZero.smoothAudio ≤ 1 ∧
    0 ≤ (frame envZero [] false 0 1 sZero).smoothAudio ∧
    (frame envZero [] false 0 1 sZero).smoothAudio ≤ 1 := by
  have h := smoothing_preserves_unit_interval envZero [] false 0 1 sZero
    (by norm_num [sZero]) (by norm_num [sZero]) (by norm_num) (by norm_num)
  exact ⟨by norm_num [sZero], by norm_num [sZero], h.1, h.2⟩

/-- C9: a play or stop request for a clip name carried by no registered
control is a no-op: every clip's playback state and fade state is unchanged. -/
theorem unknown_clip_request_noop (reg : List Clip) (nm : String)
    (h : ∀ c ∈ reg, c.name ≠ nm) :
    playByName reg nm = reg ∧ stopByName reg nm = reg := by
  have hf : findClip reg nm = none := by
    apply List.find?_eq_none.mpr
    intro c hc
    simp [h c hc]
  constructor <;> simp [playByName, stopByName, hf]

/-- Witness for the C9 theorem: requesting `dance` against a registry holding
only `wave` changes nothing. -/
theorem unknown_clip_request_noop_witness :
    playByName [strayClip] "dance" = [strayClip] ∧
    stopByName [strayClip] "dance" = [strayClip] :=
  unknown_clip_request_noop [strayClip] "dance" (by decide)

/-- C2: in the Blinking state with progress `p = (nowMs - nextBlinkAtMs)/150`,
the blink value is `2p` for `p < 1/2`, `2 - 2p` for `1/2 ≤ p < 1`, and `0`
for `p ≥ 1`, in which case the machine transitions to Open with
`nextBlinkAtMs = nowMs + 2000 + rand * 4000`, strictly in the future and in
`[nowMs + 2000, nowMs + 6000)`; the value is written identically into every
existing morph target among the four eyelid-closure names. -/
theorem blink_profile_and_reschedule (rand nowMs : ℚ) (bs : BlinkSt) (m : Mesh)
    (hb : bs.isBlinking = true) (h0 : 0 ≤ rand) (h1 : rand < 1) :
    ((nowMs - bs.nextBlink) / 150 < 1/2 →
      blinkValue ((nowMs - bs.nextBlink) / 150) = 2 * ((nowMs - bs.nextBlink) / 150)) ∧
    (1/2 ≤ (nowMs - bs.nextBlink) / 150 → (nowMs - bs.nextBlink) / 150 < 1 →
      blinkValue ((nowMs - bs.nextBlink) / 150) = 2 - 2 * ((nowMs - bs.nextBlink) / 150)) ∧
    (1 ≤ (nowMs - bs.nextBlink) / 150 →
      blinkValue ((nowMs - bs.nextBlink) / 150) = 0 ∧
      (blinkStep rand nowMs bs m).1 = ⟨false, nowMs + 2000 + rand * 4000⟩ ∧
      nowMs < nowMs + 2000 + rand * 4000 ∧
      nowMs + 2000 ≤ nowMs + 2000 + rand * 4000 ∧
      nowMs + 2000 + rand * 4000 < nowMs + 6000) ∧
    (∀ nm ∈ blinkNames, ∀ i, m.dict nm = some i →
      (blinkStep rand nowMs bs m).2.infl i = blinkValue ((nowMs - bs.nextBlink) / 150)) := by
  have hstep : blinkStep rand nowMs bs m =
      (if 1 ≤ (nowMs - bs.nextBlink) / 150 then
         (⟨false, nowMs + 2000 + rand * 4000⟩ : BlinkSt)
       else bs,
       blinkNames.foldl (setWrite (blinkValue ((nowMs - bs.nextBlink) / 150))) m) := by
    unfold blinkStep
    rw [hb]
    simp
  refine ⟨?_, ?_, ?_, ?_⟩
  · intro hp
    unfold blinkValue
    rw [if_pos hp]
    ring
  · intro hp1 hp2
    unfold blinkValue
    rw [if_neg (not_lt.mpr hp1), if_pos hp2]
    ring
  · intro hp
    have hv : blinkValue ((nowMs - bs.nextBlink) / 150) = 0 := by
      unfold blinkValue
      rw [if_neg (not_lt.mpr (by linarith)), if_neg (not_lt.mpr hp)]
    refine ⟨hv, ?_, ?_, ?_, ?_⟩
    · rw [hstep]
      simp [if_pos hp]
    · nlinarith
    · nlinarith
    · nlinarith
  · intro nm hmem i hdict
    rw [hstep]
    exact foldl_setWrite_writes _ _ _ _ _ hmem hdict

/-- Witness for the C2 theorem at `rand = 1/2`, `nowMs = 2150`,
`nextBlink = 2000` (progress exactly 1) on a mesh carrying only `blink`. -/
theorem blink_profile_and_reschedule_witness :
    (⟨true, 2000⟩ : BlinkSt).isBlinking = true ∧ (0:ℚ) ≤ 1/2 ∧ (1/2:ℚ) < 1 ∧
    blinkValue ((2150 - (⟨true, 2000⟩ : BlinkSt).nextBlink) / 150) = 0 ∧
    (blinkStep (1/2) 2150 ⟨true, 2000⟩ mDemo).1 = ⟨false, 2150 + 2000 + (1/2) * 4000⟩ ∧
    (blinkStep (1/2) 2150 ⟨true, 2000⟩ mDemo).2.infl 0 =
      blinkValue ((2150 - (⟨true, 2000⟩ : BlinkSt).nextBlink) / 150) := by
  have h := blink_profile_and_reschedule (1/2) 2150 ⟨true, 2000⟩ mDemo rfl
    (by norm_num) (by norm_num)
  have hp : (1:ℚ) ≤ (2150 - (⟨true, 2000⟩ : BlinkSt).nextBlink) / 150 := by norm_num
  refine ⟨rfl, by norm_num, by norm_num, (h.2.2.1 hp).1, (h.2.2.1 hp).2.1, ?_⟩
  exact h.2.2.2 "blink" (by simp [blinkNames]) 0 (by rfl)

/-- C5 counterexample: two distinct bones whose names both match the spine
predicate (`spine` without `spine2`); discovery records the first-visited
one, not the last — the spine slot is only filled while empty. -/
theorem discovery_spine_first_write_wins :
    strHas (lowerStr spineBoneA.name) "spine".toList = true ∧
    strHas (lowerStr spineBoneB.name) "spine".toList = true ∧
    spineBoneA ≠ spineBoneB ∧
    (discoverBones [spineBoneA, spineBoneB]).spine = some spineBoneA := by
  refine ⟨by decide, by decide, by decide, by decide⟩

theorem assignStep_getKey (b : BonesT SceneBone) (n : SceneBone) (k : BoneKey)
    (hst : hitKey false n.name = hitKey true n.name) :
    getKey (assignStep b n) k =
      orO (if hitKey true n.name = some k then some n else none) (getKey b k) := by
  have hsp : hitKey b.spine.isNone n.name = hitKey true n.name := by
    cases h : b.spine.isNone
    · rw [← hst]
    · rfl
  unfold assignStep
  rw [hsp]
  cases h : hitKey true n.name with
  | none => simp [orO]
  | some k0 =>
      rw [getKey_setKey]
      by_cases hk : k0 = k
      · simp [hk, orO]
      · simp [hk, orO, Option.some.injEq]

theorem foldl_assign_getKey (nodes : List SceneBone) (b : BonesT SceneBone) (k : BoneKey)
    (hst : ∀ n ∈ nodes, hitKey false n.name = hitKey true n.name) :
    getKey (nodes.foldl assignStep b) k = orO (lastMatch k nodes) (getKey b k) := by
  induction nodes generalizing b with
  | nil => simp [lastMatch, orO]
  | cons n ns ih =>
      rw [List.foldl_cons, ih _ (fun x hx => hst x (List.mem_cons_of_mem _ hx)),
        assignStep_getKey _ _ _ (hst n (List.mem_cons_self _ _))]
      show orO (lastMatch k ns) _ =
        orO (orO (lastMatch k ns) (if hitKey true n.name = some k then some n else none))
          (getKey b k)
      cases lastMatch k ns <;> rfl

/-- C5 (amended): last-visited-wins holds for every logical key over bones
whose classification does not depend on spine-slot occupancy (in particular
for all eleven non-spine keys and for `spine2` matches); a bone matching only
`spine` is recorded solely into an empty spine slot, so for duplicate plain
`spine` names the first-visited bone wins, as the counterexample shows. -/
theorem discovery_last_write_wins_stable (nodes : List SceneBone) (k : BoneKey)
    (hst : ∀ n ∈ nodes, hitKey false n.name = hitKey true n.name) :
    getKey (discoverBones nodes) k = lastMatch k nodes := by
  rw [discoverBones, foldl_assign_getKey nodes _ k hst, getKey_emptyBones, orO_none]

/-- Witness for the amended C5 theorem: two head-matching bones, the
last-visited one is recorded. -/
theorem discovery_last_write_wins_stable_witness :
    getKey (discoverBones [headBoneA, headBoneB]) BoneKey.head =
      lastMatch BoneKey.head [headBoneA, headBoneB] :=
  discovery_last_write_wins_stable [headBoneA, headBoneB] BoneKey.head (by decide)

/-- C6: a bone whose lower-cased name contains both `left` and `shoulder`
(resp. `right` and `shoulder`) is never classified as `leftArm` (resp.
`rightArm`) — the shoulder branch precedes the arm branch and the first
matching branch wins — and one traversal step changes at most one logical
key. -/
theorem shoulder_beats_arm (b : Bool) (name : String) (acc : BonesT SceneBone)
    (node : SceneBone) :
    (strHas (lowerStr name) "left".toList = true →
     strHas (lowerStr name) "shoulder".toList = true →
     hitKey b name ≠ some BoneKey.leftArm) ∧
    (strHas (lowerStr name) "right".toList = true →
     strHas (lowerStr name) "shoulder".toList = true →
     hitKey b name ≠ some BoneKey.rightArm) ∧
    (∀ k k', getKey (assignStep acc node) k ≠ getKey acc k →
      getKey (assignStep acc node) k' ≠ getKey acc k' → k = k') := by
  refine ⟨?_, ?_, ?_⟩
  · intro hl hs heq
    unfold hitKey at heq
    simp only [hl, hs, Bool.true_and, Bool.and_true, eq_self_iff_true, if_true] at heq
    split_ifs at heq <;> simp_all
  · intro hr hs heq
    unfold hitKey at heq
    simp only [hr, hs, Bool.true_and, Bool.and_true, eq_self_iff_true, if_true] at heq
    split_ifs at heq <;> simp_all
  · intro k k' hk hk'
    unfold assignStep at hk hk'
    cases h : hitKey acc.spine.isNone node.name with
    | none =>
        rw [h] at hk
        exact absurd rfl hk
    | some k0 =>
        rw [h] at hk hk'
        rw [getKey_setKey] at hk hk'
        by_cases e : k0 = k
        · by_cases e' : k0 = k'
          · rw [← e, e']
          · rw [if_neg e'] at hk'
            exact absurd rfl hk'
        · rw [if_neg e] at hk
          exact absurd rfl hk

/-- Witness for the C6 theorem on the names `LeftShoulder` and
`RightShoulder`. -/
theorem shoulder_beats_arm_witness :
    strHas (lowerStr "LeftShoulder") "left".toList = true ∧
    strHas (lowerStr "LeftShoulder") "shoulder".toList = true ∧
    hitKey true "LeftShoulder" ≠ some BoneKey.leftArm ∧
    strHas (lowerStr "RightShoulder") "right".toList = true ∧
    strHas (lowerStr "RightShoulder") "shoulder".toList = true ∧
    hitKey true "RightShoulder" ≠ some BoneKey.rightArm :=
  ⟨by decide, by decide,
   (shoulder_beats_arm true "LeftShoulder" emptyBones ⟨"LeftShoulder", 0⟩).1
     (by decide) (by decide),
   by decide, by decide,
   (shoulder_beats_arm true "RightShoulder" emptyBones ⟨"RightShoulder", 0⟩).2.1
     (by decide) (by decide)⟩

/-- C7: a frame never writes through an absent handle — with a mesh whose
morph dictionary resolves no name (or no mesh at all) the mesh is returned
unchanged, and every absent bone key stays absent, each missing handle only
skipping its own sub-effect. -/
theorem absent_handles_skipped (env : Env) (clips : List Clip) (dbg : Bool)
    (t a : ℚ) (s : FrameState)
    (hdict : ∀ m, s.mesh = some m → ∀ nm, m.dict nm = none) :
    (frame env clips dbg t a s).mesh = s.mesh ∧
    (∀ k, getKey s.bones k = none → getKey (frame env clips dbg t a s).bones k = none) := by
  constructor
  · cases hs : s.mesh with
    | none => simp [frame, frameMorph, hs]
    | some m =>
        have hd := hdict m hs
        have hlip : ∀ q : ℚ, lipStep q m = m := fun q => by
          simp [lipStep, mouthTargets, List.findSome?, hd]
        have hsmile : smileStep m = m := by
          simp [smileStep, smileTargets, lerpWrite, hd]
        have hblink : (blinkStep env.rand (t * 1000) s.blink m).2 = m := by
          unfold blinkStep
          split
          · simp [blinkNames, setWrite, hd]
          · split <;> rfl
        have hexpr : ∀ tk, exprStep env t tk m = m := fun tk => by
          simp [exprStep, exprWrite, hd]
        simp only [frame, frameMorph, hs, morphBlock]
        rw [hlip, hsmile, hblink, hexpr]
  · intro k hk
    have hb : (frame env clips dbg t a s).bones =
        if !isAnyAnimPlaying clips && !dbg then
          boneStep env t (decide ((1:ℚ)/20 < lerp s.smoothAudio a (1/5))) s.bones
        else s.bones := rfl
    rw [hb]
    split
    · cases k <;> simp_all [boneStep, getKey]
    · exact hk

/-- Witness for the C7 theorem: mesh with an empty dictionary, no bones. -/
theorem absent_handles_skipped_witness :
    (frame envZero [] false 0 0 sMeshOnly).mesh = sMeshOnly.mesh ∧
    getKey (frame envZero [] false 0 0 sMeshOnly).bones BoneKey.leftArm = none := by
  have hd : ∀ m, sMeshOnly.mesh = some m → ∀ nm, m.dict nm = none := by
    intro m hm nm
    have : mEmpty = m := by simpa [sMeshOnly] using hm
    rw [← this]
    rfl
  have h := absent_handles_skipped envZero [] false 0 0 sMeshOnly hd
  exact ⟨h.1, h.2 BoneKey.leftArm rfl⟩

/-- C8: with the raw level held at 0 the smoothed audio becomes `0.8` times
its previous value each frame, never increases while nonnegative, and from
any start in [0,1] drops below 0.01 within 21 frames; once the freshly
smoothed value is at or below the 0.05 talk threshold, `isTalking` is false,
every talk-only expression write lerps its influence toward 0 at rate 0.1,
and (with the procedural guard passing) each arm/forearm bone lerps toward
its idle baseline rotation. -/
theorem zero_audio_decay_and_idle_return (env : Env) (clips : List Clip) (t : ℚ)
    (s : FrameState) (la lf ra rf : BoneRot) (q : ℚ)
    (hq0 : 0 ≤ q) (hq1 : q ≤ 1)
    (hsm : lerp s.smoothAudio 0 (1/5) ≤ 1/20)
    (hplay : isAnyAnimPlaying clips = false)
    (hla : s.bones.leftArm = some la) (hlf : s.bones.leftForeArm = some lf)
    (hra : s.bones.rightArm = some ra) (hrf : s.bones.rightForeArm = some rf) :
    (frame env clips false t 0 s).smoothAudio = (4/5) * s.smoothAudio ∧
    lerp q 0 (1/5) ≤ q ∧
    (fun y => lerp y 0 (1/5))^[21] q < 1/100 ∧
    decide ((1:ℚ)/20 < lerp s.smoothAudio 0 (1/5)) = false ∧
    (∀ (tv : ℚ) (m : Mesh) (nm : String) (i : Nat), m.dict nm = some i →
      (exprWrite false tv m nm).infl i = lerp (m.infl i) 0 (1/10)) ∧
    (frame env clips false t 0 s).bones.leftArm =
      some ⟨lerp la.x (degToRad env.pi 61) (1/10),
            lerp la.y (degToRad env.pi (-20)) (1/10),
            lerp la.z (degToRad env.pi (-8)) (1/10)⟩ ∧
    (frame env clips false t 0 s).bones.leftForeArm =
      some { lf with z := lerp lf.z (degToRad env.pi 15) (1/10) } ∧
    (frame env clips false t 0 s).bones.rightArm =
      some ⟨lerp ra.x (degToRad env.pi 61) (1/10),
            lerp ra.y (degToRad env.pi 20) (1/10),
            lerp ra.z (degToRad env.pi 14) (1/10)⟩ ∧
    (frame env clips false t 0 s).bones.rightForeArm =
      some { rf with z := lerp rf.z (degToRad env.pi (-15)) (1/10) } := by
  have htalk : decide ((1:ℚ)/20 < lerp s.smoothAudio 0 (1/5)) = false :=
    decide_eq_false (not_lt.mpr hsm)
  have hbones : (frame env clips false t 0 s).bones = boneStep env t false s.bones := by
    show (if !isAnyAnimPlaying clips && !false then
        boneStep env t (decide ((1:ℚ)/20 < lerp s.smoothAudio 0 (1/5))) s.bones
      else s.bones) = boneStep env t false s.bones
    rw [hplay, htalk]
    rfl
  refine ⟨?_, ?_, ?_, htalk, ?_, ?_, ?_, ?_, ?_⟩
  · show lerp s.smoothAudio 0 (1/5) = (4/5) * s.smoothAudio
    unfold lerp
    ring
  · unfold lerp
    linarith
  · rw [decayIter]
    calc (4/5:ℚ)^21 * q ≤ (4/5:ℚ)^21 * 1 := by
          apply mul_le_mul_of_nonneg_left hq1 (by positivity)
      _ < 1/100 := by norm_num
  · intro tv m nm i hdd
    simp [exprWrite, hdd, writeInfl]
  · rw [hbones]
    simp [boneStep, hla, idleLArm]
  · rw [hbones]
    simp [boneStep, hlf]
  · rw [hbones]
    simp [boneStep, hra, idleRArm]
  · rw [hbones]
    simp [boneStep, hrf]

/-- Witness for the C8 theorem on a resting state carrying the four gesture
bones at the origin. -/
theorem zero_audio_decay_and_idle_return_witness :
    (0:ℚ) ≤ 1 ∧ (1:ℚ) ≤ 1 ∧
    lerp sIdle.smoothAudio 0 (1/5) ≤ 1/20 ∧
    isAnyAnimPlaying [] = false ∧
    (frame envZero [] false 0 0 sIdle).smoothAudio = (4/5) * sIdle.smoothAudio ∧
    (fun y => lerp y 0 (1/5))^[21] (1:ℚ) < 1/100 ∧
    (frame envZero [] false 0 0 sIdle).bones.leftArm =
      some ⟨lerp rotZero.x (degToRad envZero.pi 61) (1/10),
            lerp rotZero.y (degToRad envZero.pi (-20)) (1/10),
            lerp rotZero.z (degToRad envZero.pi (-8)) (1/10)⟩ := by
  have h := zero_audio_decay_and_idle_return envZero [] 0 sIdle
    rotZero rotZero rotZero rotZero 1
    (by norm_num) (by norm_num) (by norm_num [sIdle, lerp]) rfl rfl rfl rfl rfl
  exact ⟨by norm_num, by norm_num, by norm_num [sIdle, lerp], rfl,
    h.1, h.2.2.1, h.2.2.2.2.2.1⟩

/-- C10: the lip-sync write lerps the mouth influence toward
`1.2 * smoothed` at rate 0.4; that target is the fixed point of the write,
exceeds 1 whenever the smoothed audio exceeds 5/6, and with the raw level
held at 1 from rest the influence passes 1 within 12 frames and approaches
1.2 — the engine does not keep this influence within the documented 0..1
range. -/
theorem lip_sync_exceeds_unit_range :
    (∀ (m : Mesh) (intensity : ℚ) (i : Nat),
      List.findSome? m.dict mouthTargets = some i →
      (lipStep intensity m).infl i = lerp (m.infl i) (lipTarget intensity) (2/5)) ∧
    (∀ sA : ℚ, lerp (lipTarget sA) (lipTarget sA) (2/5) = lipTarget sA) ∧
    (∀ sA : ℚ, 5/6 < sA → 1 < lipTarget sA) ∧
    1 < (talkFrame^[12] (0, 0)).2 ∧
    6/5 - 1/100 < (talkFrame^[40] (0, 0)).2 ∧
    (talkFrame^[40] (0, 0)).2 < 6/5 := by
  refine ⟨?_, ?_, ?_, ?_, ?_, ?_⟩
  · intro m intensity i hd
    simp [lipStep, hd, writeInfl]
  · intro sA
    unfold lerp
    ring
  · intro sA h
    unfold lipTarget
    linarith
  · rw [talkIter]
    norm_num
  · rw [talkIter]
    norm_num
  · rw [talkIter]
    norm_num

/-- Witness for the C10 theorem on a mesh carrying `viseme_aa` at index 0
and smoothed audio 9/10. -/
theorem lip_sync_exceeds_unit_range_witness :
    (lipStep (9/10) mMouth).infl 0 = lerp (mMouth.infl 0) (lipTarget (9/10)) (2/5) ∧
    (5:ℚ)/6 < 9/10 ∧ 1 < lipTarget (9/10) :=
  ⟨lip_sync_exceeds_unit_range.1 mMouth (9/10) 0 rfl,
   by norm_num,
   lip_sync_exceeds_unit_range.2.2.1 (9/10) (by norm_num)⟩

end DigitalHuman
